import Mathlib

/-!
Formal model of the Emotion-Detection / image-generation backend.

The definitions below are a shallow embedding of the repository's Python
code: `src/src/clients/horde_client.py` (job submission, the poll loop and
the result materializer), `src/src/clients/gemini_client.py` (the emotion
classifier response handler) and `src/src/api/main.py` (the prompt builder
used by the edit and generate endpoints).  External effects (HTTP calls,
the clock) are made explicit: the network is a parameter mapping a request
index (or URL) to its outcome, time advances by the amount the code would
sleep, and Python exceptions become `Except` error values.  Machine floats
in the source carry exact decimal literals, modelled as rationals.
-/

namespace EmotionApp

/-! ## Prompt builder (`src/src/api/main.py`)

`EMOTION_PHRASES` and the `style_phrases` table plus fallback found in
`generate_image`; `denoising_strength` as computed by `edit_image`. -/

def EMOTION_PHRASES : List (String × String) :=
  [("happy", "gentle smile, eyes slightly crinkled, joyful expression"),
   ("sad", "downturned mouth, drooping eyes, melancholy expression"),
   ("angry", "furrowed brow, intense gaze, stern expression"),
   ("surprised", "raised eyebrows, wide eyes, open mouth"),
   ("neutral", "calm expression, relaxed features, peaceful look"),
   ("disgust", "wrinkled nose, slight frown, disapproving look"),
   ("fear", "wide eyes, tense features, worried expression")]

def style_phrases : List (String × String) :=
  [("photorealistic", "photorealistic, high detail, professional photography"),
   ("cartoon", "cartoon style, animated, colorful, digital art"),
   ("oil", "oil painting style, artistic, painterly, classical art")]

/-- ASCII lowering of one character, as Python `str.lower` acts on the
ASCII range. -/
def asciiLower (c : Char) : Char :=
  if 'A' ≤ c ∧ c ≤ 'Z' then Char.ofNat (c.toNat + 32) else c

/-- Python `str.lower()` restricted to ASCII text. -/
def str_lower (s : String) : String :=
  ⟨s.data.map asciiLower⟩

/-- `style_phrases.get(style.lower(), "photorealistic, high detail")` in
`generate_image`. -/
def style_desc (style : String) : String :=
  (style_phrases.lookup (str_lower style)).getD "photorealistic, high detail"

/-- The no-seed prompt of `generate_image`:
`f"portrait of a person showing \x7bemotion_phrase\x7d, \x7bstyle_desc\x7d"`.
Returns `none` when the emotion is rejected upstream (HTTP 400). -/
def generate_prompt (target_emotion style : String) : Option String :=
  match EMOTION_PHRASES.lookup (str_lower target_emotion) with
  | none => none
  | some emotion_phrase =>
      some ("portrait of a person showing " ++ emotion_phrase ++ ", " ++ style_desc style)

/-- `denoising_strength = 0.2 + (intensity * 0.6)` in `edit_image`. -/
def denoising_strength (intensity : ℚ) : ℚ :=
  0.2 + intensity * 0.6

/-- Boolean substring test on character lists: `hasSub needle hay` is true
exactly when `needle` occurs contiguously inside `hay`. -/
def hasSub (needle : List Char) : List Char → Bool
  | [] => needle.isEmpty
  | c :: rest => needle.isPrefixOf (c :: rest) || hasSub needle rest

theorem hasSub_append (p n q : List Char) : hasSub n (p ++ n ++ q) = true := by
  induction p with
  | nil =>
      cases n with
      | nil => cases q <;> simp [hasSub]
      | cons c cs =>
          simp only [List.nil_append, List.cons_append, hasSub, Bool.or_eq_true]
          left
          exact List.isPrefixOf_iff_prefix.mpr ⟨q, by simp⟩
  | cons c cs ih =>
      simp only [List.cons_append, hasSub, Bool.or_eq_true]
      right
      exact ih

/-- Claim C3: the edit-mode denoising strength equals
`0.2 + intensity * 0.6` for every intensity in `[0, 1]`; it is strictly
monotone in the intensity, stays inside `[0.2, 0.8]`, and attains `0.2`
at intensity `0` and `0.8` at intensity `1`. -/
theorem edit_denoising_strength_spec (intensity : ℚ)
    (h0 : 0 ≤ intensity) (h1 : intensity ≤ 1) :
    denoising_strength intensity = 0.2 + intensity * 0.6
    ∧ 0.2 ≤ denoising_strength intensity
    ∧ denoising_strength intensity ≤ 0.8
    ∧ (∀ i j : ℚ, i < j → denoising_strength i < denoising_strength j)
    ∧ denoising_strength 0 = 0.2
    ∧ denoising_strength 1 = 0.8 := by
  refine ⟨rfl, ?_, ?_, ?_, by norm_num [denoising_strength], by norm_num [denoising_strength]⟩
  · unfold denoising_strength
    nlinarith
  · unfold denoising_strength
    nlinarith
  · intro i j hij
    unfold denoising_strength
    nlinarith

/-- Witness for C3 at intensity `1/2`: all hypotheses hold and the
strength evaluates to `1/2`. -/
theorem edit_denoising_strength_spec_witness :
    denoising_strength (1/2) = 0.2 + (1/2 : ℚ) * 0.6 ∧ denoising_strength (1/2) = 1/2 :=
  ⟨(edit_denoising_strength_spec (1/2) (by norm_num) (by norm_num)).1,
   by norm_num [denoising_strength]⟩

/-- Counterexample to claim C7 as stated: for the unknown style
`"watercolor"` the fallback phrase is `"photorealistic, high detail"`,
which differs from the phrase used for style `"photorealistic"`, and the
generated prompt does not contain the photorealistic table phrase. -/
theorem style_fallback_counterexample :
    style_desc "watercolor" = "photorealistic, high detail"
    ∧ style_desc "photorealistic" = "photorealistic, high detail, professional photography"
    ∧ style_desc "watercolor" ≠ style_desc "photorealistic"
    ∧ hasSub (style_desc "photorealistic").data
        ((generate_prompt "happy" "watercolor").getD "").data = false := by
  refine ⟨rfl, rfl, by decide, by decide⟩

/-- Claim C7 amended: for every style string missing from the three-entry
style table, the prompt builder falls back to the fixed phrase
`"photorealistic, high detail"` (a shorter phrase than the table entry for
`"photorealistic"`). -/
theorem style_fallback_spec (style : String)
    (h : style_phrases.lookup (str_lower style) = none) :
    style_desc style = "photorealistic, high detail" := by
  unfold style_desc
  rw [h]
  rfl

/-- Witness for the amended C7 at the concrete unknown style `"watercolor"`. -/
theorem style_fallback_spec_witness :
    style_desc "watercolor" = "photorealistic, high detail" :=
  style_fallback_spec "watercolor" (by decide)

/-! ## Job submission client (`submit_horde_job` in `horde_client.py`)

Parameter dictionaries are modelled by their lookup functions
(`String → Option ParamValue`); the provider is a function from the
attempt index to the outcome of that POST.  The returned record carries
the result, the total time slept (`time.sleep(2)` between attempts) and
the number of attempts made. -/

inductive ParamValue
  | nat (n : Nat)
  | rat (q : ℚ)
  | str (s : String)
deriving DecidableEq

/-- The `default_params` dictionary of `submit_horde_job`. -/
def default_params : String → Option ParamValue := fun k =>
  if k = "steps" then some (.nat 30)
  else if k = "width" then some (.nat 512)
  else if k = "height" then some (.nat 512)
  else if k = "cfg_scale" then some (.rat 7.5)
  else if k = "sampler_name" then some (.str "k_euler")
  else none

/-- `default_params.update(params)`: a caller-supplied key overrides the
default binding. -/
def merged_params (params : String → Option ParamValue) : String → Option ParamValue :=
  fun k =>
    match params k with
    | some v => some v
    | none => default_params k

/-- The parameter mapping carried by the submitted payload: after the
merge, `payload["params"]["denoising_strength"] = 0.75` is inserted when a
seed image is present and the key is still absent. -/
def sent_params (params : String → Option ParamValue) (seedPresent : Bool) :
    String → Option ParamValue :=
  let merged := merged_params params
  if seedPresent then
    if merged "denoising_strength" = none then
      fun k => if k = "denoising_strength" then some (.rat 0.75) else merged k
    else merged
  else merged

structure SubmitBody where
  id : Option String
deriving DecidableEq

inductive SubmitOutcome
  | transportError
  | httpResponse (code : Nat) (body : SubmitBody)
deriving DecidableEq

inductive SubmitError
  | noJobId
  | submissionFailed (code : Nat)
  | networkError
deriving DecidableEq

/-- What one iteration of the `for attempt in range(2)` loop decides about
its response: a 202 with a truthy `id` succeeds, a 202 without one raises
`RuntimeError("No job ID in response")` at once, anything else (non-202
status or a transport exception) is a failed attempt. -/
inductive AttemptResult
  | success (jobId : String) (body : SubmitBody)
  | noId
  | rejected (code : Nat)
  | transport
deriving DecidableEq

def classifyAttempt : SubmitOutcome → AttemptResult
  | .transportError => .transport
  | .httpResponse code body =>
      if code = 202 then
        match body.id with
        | some jid => if jid = "" then .noId else .success jid body
        | none => .noId
      else .rejected code

/-- A failed attempt, the two cases the loop retries on. -/
def attemptFails : AttemptResult → Bool
  | .rejected _ => true
  | .transport => true
  | _ => false

structure SubmitRun where
  result : Except SubmitError (String × SubmitBody)
  slept : ℚ
  attempts : Nat

/-- The retry loop of `submit_horde_job`: at most two attempts, with
`time.sleep(2)` before the second; on the second failure the
`RuntimeError` from line 74 (non-202) or line 80 (transport) propagates. -/
def submit_horde_job (provider : Nat → SubmitOutcome) : SubmitRun :=
  match classifyAttempt (provider 0) with
  | .success j b => ⟨.ok (j, b), 0, 1⟩
  | .noId => ⟨.error .noJobId, 0, 1⟩
  | .rejected _ | .transport =>
      match classifyAttempt (provider 1) with
      | .success j b => ⟨.ok (j, b), 2, 2⟩
      | .noId => ⟨.error .noJobId, 2, 2⟩
      | .rejected c => ⟨.error (.submissionFailed c), 2, 2⟩
      | .transport => ⟨.error .networkError, 2, 2⟩

/-- Claim C2: the submission client makes at most two attempts; after a
failed first attempt it sleeps exactly 2 time units and, if the second
attempt succeeds, returns that attempt's job identifier and response; if
both attempts fail it ends in a submission error (the non-202 or the
transport `RuntimeError`). -/
theorem submit_retry_spec (provider : Nat → SubmitOutcome) :
    (submit_horde_job provider).attempts ≤ 2
    ∧ (∀ j b, attemptFails (classifyAttempt (provider 0)) = true →
        classifyAttempt (provider 1) = .success j b →
        submit_horde_job provider = ⟨.ok (j, b), 2, 2⟩)
    ∧ (attemptFails (classifyAttempt (provider 0)) = true →
        attemptFails (classifyAttempt (provider 1)) = true →
        ((∃ c, (submit_horde_job provider).result = .error (.submissionFailed c))
          ∨ (submit_horde_job provider).result = .error .networkError)
        ∧ (submit_horde_job provider).slept = 2
        ∧ (submit_horde_job provider).attempts = 2) := by
  refine ⟨?_, ?_, ?_⟩
  · unfold submit_horde_job
    rcases classifyAttempt (provider 0) with _ | _ | _ | _ <;>
      rcases classifyAttempt (provider 1) with _ | _ | _ | _ <;> simp
  · intro j b h0 h1
    unfold submit_horde_job
    rcases hc : classifyAttempt (provider 0) with _ | _ | c | _ <;>
      simp [hc, attemptFails] at h0 ⊢ <;> simp [h1]
  · intro h0 h1
    unfold submit_horde_job
    rcases hc : classifyAttempt (provider 0) with _ | _ | c | _ <;>
      simp [hc, attemptFails] at h0 ⊢ <;>
      rcases hd : classifyAttempt (provider 1) with _ | _ | d | _ <;>
      simp [hd, attemptFails] at h1 ⊢

/-- A provider that fails with a transport error once, then accepts. -/
def providerFailThenOk : Nat → SubmitOutcome := fun n =>
  if n = 0 then .transportError else .httpResponse 202 ⟨some "jobA"⟩

/-- Witness for C2: against `providerFailThenOk` the second attempt's
identifier and response are returned after a 2 time-unit sleep. -/
theorem submit_retry_spec_witness :
    submit_horde_job providerFailThenOk
      = ⟨.ok ("jobA", ⟨some "jobA"⟩), 2, 2⟩ :=
  (submit_retry_spec providerFailThenOk).2.1 "jobA" ⟨some "jobA"⟩ (by decide) (by decide)

/-- Claim C8: the parameter set sent by `submit_horde_job` is the fixed
default table (`steps=30`, `width=512`, `height=512`, `cfg_scale=7.5`,
`sampler_name="k_euler"`) overridden by every caller-supplied key, and
when a seed image is present and the caller supplied no denoising
strength, it additionally binds `denoising_strength` to `0.75`. -/
theorem submit_params_spec (params : String → Option ParamValue) (seedPresent : Bool) :
    default_params "steps" = some (.nat 30)
    ∧ default_params "width" = some (.nat 512)
    ∧ default_params "height" = some (.nat 512)
    ∧ default_params "cfg_scale" = some (.rat 7.5)
    ∧ default_params "sampler_name" = some (.str "k_euler")
    ∧ (∀ k v, params k = some v → sent_params params seedPresent k = some v)
    ∧ (∀ k, params k = none → k ≠ "denoising_strength" →
        sent_params params seedPresent k = default_params k)
    ∧ (seedPresent = true → params "denoising_strength" = none →
        sent_params params seedPresent "denoising_strength" = some (.rat 0.75))
    ∧ (seedPresent = false → params "denoising_strength" = none →
        sent_params params seedPresent "denoising_strength" = none) := by
  have hmk : ∀ k v, params k = some v → merged_params params k = some v := by
    intro k v hk
    unfold merged_params
    rw [hk]
  have hmn : ∀ k, params k = none → merged_params params k = default_params k := by
    intro k hk
    unfold merged_params
    rw [hk]
  refine ⟨rfl, rfl, rfl, rfl, rfl, ?_, ?_, ?_, ?_⟩
  · intro k v hk
    unfold sent_params
    cases seedPresent with
    | false => exact hmk k v hk
    | true =>
        simp only [if_true]
        by_cases hd : merged_params params "denoising_strength" = none
        · have hkne : k ≠ "denoising_strength" := by
            intro hkeq
            rw [hkeq] at hk
            rw [hmk _ _ hk] at hd
            exact Option.noConfusion hd
          simp only [hd, if_true, if_neg hkne]
          exact hmk k v hk
        · simp only [if_neg hd]
          exact hmk k v hk
  · intro k hk hkne
    unfold sent_params
    cases seedPresent with
    | false => exact hmn k hk
    | true =>
        simp only [if_true]
        by_cases hd : merged_params params "denoising_strength" = none
        · simp only [hd, if_true, if_neg hkne]
          exact hmn k hk
        · simp only [if_neg hd]
          exact hmn k hk
  · intro hs hd
    subst hs
    have hmd : merged_params params "denoising_strength" = none := by
      rw [hmn _ hd]
      rfl
    unfold sent_params
    simp only [if_true, hmd]
  · intro hs hd
    subst hs
    have hmd : merged_params params "denoising_strength" = none := by
      rw [hmn _ hd]
      rfl
    unfold sent_params
    simp only [Bool.false_eq_true, if_false]
    exact hmd

/-- A caller-supplied parameter map overriding only the step count. -/
def callerSteps20 : String → Option ParamValue := fun k =>
  if k = "steps" then some (.nat 20) else none

/-- Witness for C8 at a concrete caller map: the override wins, untouched
keys keep their defaults, and with a seed image the default denoising
strength `0.75` is injected. -/
theorem submit_params_spec_witness :
    sent_params callerSteps20 true "steps" = some (.nat 20)
    ∧ sent_params callerSteps20 true "cfg_scale" = some (.rat 7.5)
    ∧ sent_params callerSteps20 true "denoising_strength" = some (.rat 0.75)
    ∧ sent_params callerSteps20 false "denoising_strength" = none :=
  ⟨(submit_params_spec callerSteps20 true).2.2.2.2.2.1 "steps" (.nat 20) rfl,
   by
    have h := (submit_params_spec callerSteps20 true).2.2.2.2.2.2.1 "cfg_scale" rfl (by decide)
    rw [h]
    rfl,
   (submit_params_spec callerSteps20 true).2.2.2.2.2.2.2.1 rfl rfl,
   (submit_params_spec callerSteps20 false).2.2.2.2.2.2.2.2 rfl rfl⟩

/-! ## Job poll loop (`poll_horde_job` in `horde_client.py`)

The provider is a function from the status-query index to that GET's
outcome.  Status queries are instantaneous; the clock advances by
`poll_interval` at each `time.sleep(poll_interval)`.  The `while True`
loop is given fuel; `none` means the fuel ran out before any of the
source's exits fired. -/

structure Generation where
  img : Option String
deriving DecidableEq

/-- The truthiness filter `if gen.get("img")` of line 109: a record
contributes its `img` string exactly when it is present and non-empty. -/
def imgValue (g : Generation) : Option String :=
  match g.img with
  | some s => if s = "" then none else some s
  | none => none

structure StatusPayload where
  done : Bool := false
  is_possible : Bool := true
  generations : List Generation := []
  queue_position : Nat := 0
deriving DecidableEq

inductive PollQuery
  | transportError
  | httpResponse (code : Nat) (payload : StatusPayload)
deriving DecidableEq

inductive PollError
  /-- `TimeoutError(f"Job ... timed out after ... seconds")`, carrying the
  job identifier and the configured timeout interpolated into the message. -/
  | timeoutError (jobId : String) (timeout : ℚ)
  | statusCheckFailed (code : Nat)
  | networkError
  /-- `RuntimeError("Job marked as impossible by horde")`. -/
  | jobImpossible
  /-- The two empty-result raises of lines 107 and 112, with their
  messages. -/
  | emptyResult (msg : String)
deriving DecidableEq

structure PollState where
  queries : Nat
  elapsed : ℚ
  slept : ℚ
deriving DecidableEq

def poll_horde_job (provider : Nat → PollQuery) (jobId : String)
    (poll_interval timeout : ℚ) :
    Nat → PollState → Option (Except PollError (List String × StatusPayload) × PollState)
  | 0, _ => none
  | fuel + 1, st =>
      if timeout < st.elapsed then
        some (.error (.timeoutError jobId timeout), st)
      else
        match provider st.queries with
        | .transportError => some (.error .networkError, { st with queries := st.queries + 1 })
        | .httpResponse code payload =>
            let st1 : PollState := { st with queries := st.queries + 1 }
            if code ≠ 200 then some (.error (.statusCheckFailed code), st1)
            else if payload.is_possible = false then some (.error .jobImpossible, st1)
            else if payload.done then
              if payload.generations = [] then
                some (.error (.emptyResult "Job completed but no images generated"), st1)
              else
                let images := payload.generations.filterMap imgValue
                if images = [] then
                  some (.error (.emptyResult "No valid images in completed job"), st1)
                else some (.ok (images, payload), st1)
            else
              poll_horde_job provider jobId poll_interval timeout fuel
                { st1 with elapsed := st1.elapsed + poll_interval,
                           slept := st1.slept + poll_interval }

/-- A provider whose job is reported done on the first query, flagged
impossible, with one populated generation record. -/
def providerDoneImpossible : Nat → PollQuery := fun _ =>
  .httpResponse 200 { done := true, is_possible := false, generations := [⟨some "img1"⟩] }

/-- Counterexample to claim C1 as stated: on a payload marked done the
loop can fail with the impossible-job error rather than returning the
populated result reference or raising an empty-result error, because the
`is_possible` check precedes the done branch. -/
theorem poll_done_counterexample :
    poll_horde_job providerDoneImpossible "j" 3 180 1 ⟨0, 0, 0⟩
      = some (.error .jobImpossible, ⟨1, 0, 0⟩)
    ∧ (Except.error PollError.jobImpossible
        : Except PollError (List String × StatusPayload))
      ≠ .ok (["img1"], { done := true, is_possible := false,
                         generations := [⟨some "img1"⟩] }) := by
  refine ⟨rfl, fun h => Except.noConfusion h⟩

/-- Claim C1 amended: on a poll iteration (inside the timeout) whose
status payload is marked done and is not marked impossible, the loop
returns exactly the `img` fields of the generation records that carry a
non-empty one, in provider order; if no record carries one it fails with
one of the two empty-result errors instead of returning. -/
theorem poll_done_results_spec (provider : Nat → PollQuery) (jobId : String)
    (poll_interval timeout : ℚ) (fuel : Nat) (st : PollState) (payload : StatusPayload)
    (hfuel : 1 ≤ fuel) (helapsed : st.elapsed ≤ timeout)
    (hq : provider st.queries = .httpResponse 200 payload)
    (hdone : payload.done = true) (hposs : payload.is_possible = true) :
    (payload.generations.filterMap imgValue ≠ [] →
      poll_horde_job provider jobId poll_interval timeout fuel st
        = some (.ok (payload.generations.filterMap imgValue, payload),
                { st with queries := st.queries + 1 }))
    ∧ (payload.generations.filterMap imgValue = [] →
      ∃ msg, poll_horde_job provider jobId poll_interval timeout fuel st
        = some (.error (.emptyResult msg), { st with queries := st.queries + 1 })) := by
  obtain ⟨f, rfl⟩ : ∃ f, fuel = f + 1 := ⟨fuel - 1, by omega⟩
  have hnotlt : ¬ timeout < st.elapsed := not_lt.mpr helapsed
  constructor
  · intro himg
    have hgen : payload.generations ≠ [] := by
      intro hgeq
      apply himg
      rw [hgeq]
      rfl
    simp only [poll_horde_job, if_neg hnotlt, hq, hposs, hdone]
    simp [hgen, himg]
  · intro himg
    by_cases hgen : payload.generations = []
    · refine ⟨"Job completed but no images generated", ?_⟩
      simp only [poll_horde_job, if_neg hnotlt, hq, hposs, hdone]
      simp [hgen]
    · refine ⟨"No valid images in completed job", ?_⟩
      simp only [poll_horde_job, if_neg hnotlt, hq, hposs, hdone]
      simp [hgen, himg]

/-- A provider that completes on the first query with one empty-result
record followed by one populated record. -/
def providerDoneMixed : Nat → PollQuery := fun _ =>
  .httpResponse 200 { done := true, generations := [⟨some ""⟩, ⟨some "R2"⟩] }

/-- Witness for the amended C1: with one empty-result record and one
populated record, exactly the populated reference is returned, in order. -/
theorem poll_done_results_spec_witness :
    poll_horde_job providerDoneMixed "j" 3 180 1 ⟨0, 0, 0⟩
      = some (.ok (["R2"], { done := true, generations := [⟨some ""⟩, ⟨some "R2"⟩] }),
              ⟨1, 0, 0⟩) :=
  (poll_done_results_spec providerDoneMixed "j" 3 180 1 ⟨0, 0, 0⟩
      { done := true, generations := [⟨some ""⟩, ⟨some "R2"⟩] }
      (by norm_num) (by norm_num) rfl rfl rfl).1 (by decide)

/-- Claim C5: on an iteration (inside the timeout) whose status payload
marks the job impossible, the loop fails with the impossible-job error at
once: the final state keeps the entry state's elapsed time and total sleep,
so no `time.sleep(poll_interval)` happens and the timeout is not awaited. -/
theorem poll_impossible_spec (provider : Nat → PollQuery) (jobId : String)
    (poll_interval timeout : ℚ) (fuel : Nat) (st : PollState) (payload : StatusPayload)
    (hfuel : 1 ≤ fuel) (helapsed : st.elapsed ≤ timeout)
    (hq : provider st.queries = .httpResponse 200 payload)
    (himp : payload.is_possible = false) :
    poll_horde_job provider jobId poll_interval timeout fuel st
      = some (.error .jobImpossible,
              { queries := st.queries + 1, elapsed := st.elapsed, slept := st.slept }) := by
  obtain ⟨f, rfl⟩ : ∃ f, fuel = f + 1 := ⟨fuel - 1, by omega⟩
  have hnotlt : ¬ timeout < st.elapsed := not_lt.mpr helapsed
  simp only [poll_horde_job, if_neg hnotlt, hq, himp]
  simp

/-- Witness for C5: a first-query impossible payload fails immediately
with zero time slept. -/
theorem poll_impossible_spec_witness :
    poll_horde_job providerDoneImpossible "j" 3 180 5 ⟨0, 0, 0⟩
      = some (.error .jobImpossible, ⟨1, 0, 0⟩) :=
  poll_impossible_spec providerDoneImpossible "j" 3 180 5 ⟨0, 0, 0⟩
    { done := true, is_possible := false, generations := [⟨some "img1"⟩] }
    (by norm_num) (by norm_num) rfl rfl

/-- A provider that never completes: every query answers 200 with a
payload that is neither done nor impossible. -/
def providerNeverDone : Nat → PollQuery := fun _ =>
  .httpResponse 200 {}

/-- Counterexample to claim C4 as stated: with poll interval 3 and
timeout 4 against a provider that never completes, the loop fails once
the elapsed time reaches 6, but the raised error carries the configured
timeout 4, not the elapsed duration 6. -/
theorem poll_timeout_counterexample :
    poll_horde_job providerNeverDone "j" 3 4 3 ⟨0, 0, 0⟩
      = some (.error (.timeoutError "j" 4), ⟨2, 6, 6⟩)
    ∧ (6 : ℚ) ≠ 4 := by
  refine ⟨?_, by norm_num⟩
  norm_num [poll_horde_job, providerNeverDone]

/-- Claim C4 amended: whenever the elapsed time exceeds the timeout the
loop fails with a `TimeoutError` carrying the job identifier and the
configured timeout; against a provider that never completes this happens
at an elapsed time within one poll interval above the timeout. -/
theorem poll_timeout_spec (jobId : String) (poll_interval timeout : ℚ)
    (_hi : 0 < poll_interval) (n : Nat) (st : PollState)
    (hst : st.elapsed ≤ timeout + poll_interval)
    (hn : timeout < st.elapsed + n * poll_interval) :
    ∃ stf, poll_horde_job providerNeverDone jobId poll_interval timeout (n + 1) st
        = some (.error (.timeoutError jobId timeout), stf)
      ∧ timeout < stf.elapsed
      ∧ stf.elapsed ≤ timeout + poll_interval := by
  revert hst hn
  induction n generalizing st with
  | zero =>
      intro hst hn
      have hlt : timeout < st.elapsed := by
        simpa using hn
      exact ⟨st, by simp only [poll_horde_job, if_pos hlt], hlt, hst⟩
  | succ n ih =>
      intro hst hn
      by_cases hlt : timeout < st.elapsed
      · exact ⟨st, by simp only [poll_horde_job, if_pos hlt], hlt, hst⟩
      · push_neg at hlt
        have hcast : ((n + 1 : ℕ) : ℚ) * poll_interval
            = (n : ℚ) * poll_interval + poll_interval := by
          push_cast
          ring
        have hrec := ih { queries := st.queries + 1, elapsed := st.elapsed + poll_interval,
                          slept := st.slept + poll_interval }
          (by simpa using add_le_add_right hlt poll_interval)
          (by
            rw [hcast] at hn
            simp only []
            linarith)
        obtain ⟨stf, heq, h1, h2⟩ := hrec
        refine ⟨stf, ?_, h1, h2⟩
        rw [← heq]
        simp only [poll_horde_job, if_neg (not_lt.mpr hlt)]
        rfl

/-- Witness for the amended C4 at interval 3, timeout 4: the loop fails
with the timeout error carrying identifier and configured timeout, at an
elapsed time in `(4, 7]`. -/
theorem poll_timeout_spec_witness :
    ∃ stf, poll_horde_job providerNeverDone "j" 3 4 (2 + 1) ⟨0, 0, 0⟩
        = some (.error (.timeoutError "j" 4), stf)
      ∧ (4 : ℚ) < stf.elapsed
      ∧ stf.elapsed ≤ 4 + 3 :=
  poll_timeout_spec "j" 3 4 (by norm_num) 2 ⟨0, 0, 0⟩ (by norm_num) (by norm_num)

/-! ## Result materializer (`b64_to_bytes` in `horde_client.py`)

Bytes are naturals below 256.  `b64encode`/`b64decode` model Python's
`base64.b64encode` and `base64.b64decode` (the latter in its default
non-validating mode: characters outside the alphabet are skipped, padding
is only honoured once two sextets of the current group have been read,
completed padding ends the scan, and a leftover partial group raises
`binascii.Error`, surfaced here as `decodeError`).  The network is a
function from the URL to the GET's status code and body. -/

inductive HordeError
  | downloadError (code : Nat)
  | decodeError
  | indexError
deriving DecidableEq

def b64Alphabet : List Char :=
  "ABCDEFGHIJKLMNOPQRSTUVWXYZabcdefghijklmnopqrstuvwxyz0123456789+/".data

def b64Chr (v : Nat) : Char := b64Alphabet.getD v 'A'

def b64Index (c : Char) : Option Nat := b64Alphabet.indexOf? c

def isB64Char (c : Char) : Bool := (b64Index c).isSome

/-- `base64.b64encode`, emitting four characters per three-byte group and
padding the final group with `=`. -/
def b64encode : List Nat → List Char
  | [] => []
  | [a] => [b64Chr (a / 4), b64Chr (a % 4 * 16), '=', '=']
  | [a, b] => [b64Chr (a / 4), b64Chr (a % 4 * 16 + b / 16), b64Chr (b % 16 * 4), '=']
  | a :: b :: c :: rest =>
      b64Chr (a / 4) :: b64Chr (a % 4 * 16 + b / 16) :: b64Chr (b % 16 * 4 + c / 64)
        :: b64Chr (c % 64) :: b64encode rest

/-- The bytes recovered from a final group of two or three sextets. -/
def flushQuad : List Nat → List Nat
  | [w, x] => [w * 4 + x / 16]
  | [w, x, y] => [w * 4 + x / 16, x % 16 * 16 + y / 4]
  | _ => []

/-- The `binascii.a2b_base64` scan: `acc` are the decoded bytes, `quad`
the sextets of the current group, `pads` the padding characters seen for
it. -/
def b64decodeAux : List Char → List Nat → List Nat → Nat → Except HordeError (List Nat)
  | [], acc, quad, _ =>
      if quad = [] then .ok acc else .error .decodeError
  | c :: rest, acc, quad, pads =>
      if c = '=' then
        if 2 ≤ quad.length then
          if 4 ≤ quad.length + (pads + 1) then .ok (acc ++ flushQuad quad)
          else b64decodeAux rest acc quad (pads + 1)
        else b64decodeAux rest acc quad pads
      else
        match b64Index c with
        | none => b64decodeAux rest acc quad pads
        | some v =>
            match quad with
            | [w, x, y] =>
                b64decodeAux rest
                  (acc ++ [w * 4 + x / 16, x % 16 * 16 + y / 4, y % 4 * 64 + v]) [] pads
            | _ => b64decodeAux rest acc (quad ++ [v]) pads

def b64decode (s : List Char) : Except HordeError (List Nat) :=
  b64decodeAux s [] [] 0

/-- Python `s.split(",", 1)`: the text before the first comma, and the
text after it when one exists. -/
def splitFirstComma : List Char → List Char × Option (List Char)
  | [] => ([], none)
  | c :: rest =>
      if c = ',' then ([], some rest)
      else
        let r := splitFirstComma rest
        (c :: r.1, r.2)

/-- `b64_to_bytes`: an `http`-prefixed reference is fetched (non-200
fails with a download error); a `data:`-prefixed reference is split at
its first comma, `[1]` of a comma-free split being an `IndexError`;
anything else is decoded directly. -/
def b64_to_bytes (net : List Char → Nat × List Nat) (s : List Char) :
    Except HordeError (List Nat) :=
  if "http".data.isPrefixOf s then
    let r := net s
    if r.1 = 200 then .ok r.2 else .error (.downloadError r.1)
  else if "data:".data.isPrefixOf s then
    match (splitFirstComma s).2 with
    | some rest => b64decode rest
    | none => .error .indexError
  else
    b64decode s

theorem b64_table :
    ∀ v : Fin 64, b64Index (b64Chr v.val) = some v.val ∧ b64Chr v.val ≠ '=' := by
  decide

theorem b64Index_b64Chr {v : Nat} (h : v < 64) : b64Index (b64Chr v) = some v :=
  (b64_table ⟨v, h⟩).1

theorem b64Chr_ne_pad {v : Nat} (h : v < 64) : b64Chr v ≠ '=' :=
  (b64_table ⟨v, h⟩).2

theorem decodeAux_data0 {c : Char} {v : Nat} (hne : c ≠ '=') (hv : b64Index c = some v)
    (rest : List Char) (acc : List Nat) (pads : Nat) :
    b64decodeAux (c :: rest) acc [] pads = b64decodeAux rest acc [v] pads := by
  simp only [b64decodeAux, if_neg hne, hv]
  rfl

theorem decodeAux_data1 {c : Char} {v w : Nat} (hne : c ≠ '=') (hv : b64Index c = some v)
    (rest : List Char) (acc : List Nat) (pads : Nat) :
    b64decodeAux (c :: rest) acc [w] pads = b64decodeAux rest acc [w, v] pads := by
  simp only [b64decodeAux, if_neg hne, hv]
  rfl

theorem decodeAux_data2 {c : Char} {v w x : Nat} (hne : c ≠ '=') (hv : b64Index c = some v)
    (rest : List Char) (acc : List Nat) (pads : Nat) :
    b64decodeAux (c :: rest) acc [w, x] pads = b64decodeAux rest acc [w, x, v] pads := by
  simp only [b64decodeAux, if_neg hne, hv]
  rfl

theorem decodeAux_data3 {c : Char} {v w x y : Nat} (hne : c ≠ '=') (hv : b64Index c = some v)
    (rest : List Char) (acc : List Nat) (pads : Nat) :
    b64decodeAux (c :: rest) acc [w, x, y] pads
      = b64decodeAux rest (acc ++ [w * 4 + x / 16, x % 16 * 16 + y / 4, y % 4 * 64 + v]) [] pads := by
  simp only [b64decodeAux, if_neg hne, hv]

theorem decodeAux_pad2_first {w x : Nat} (rest : List Char) (acc : List Nat) :
    b64decodeAux ('=' :: rest) acc [w, x] 0 = b64decodeAux rest acc [w, x] 1 :=
  rfl

theorem decodeAux_pad2_second {w x : Nat} (rest : List Char) (acc : List Nat) :
    b64decodeAux ('=' :: rest) acc [w, x] 1 = .ok (acc ++ flushQuad [w, x]) :=
  rfl

theorem decodeAux_pad3 {w x y : Nat} (rest : List Char) (acc : List Nat) :
    b64decodeAux ('=' :: rest) acc [w, x, y] 0 = .ok (acc ++ flushQuad [w, x, y]) :=
  rfl

/-- Decoding the encoder's output appends exactly the original bytes. -/
theorem b64decodeAux_encode :
    ∀ (n : Nat) (bs : List Nat), bs.length ≤ n → (∀ x ∈ bs, x < 256) →
      ∀ acc, b64decodeAux (b64encode bs) acc [] 0 = .ok (acc ++ bs) := by
  intro n
  induction n with
  | zero =>
      intro bs hlen _ acc
      have hbs : bs = [] := List.length_eq_zero.mp (Nat.le_zero.mp hlen)
      subst hbs
      simp [b64encode, b64decodeAux]
  | succ n ih =>
      intro bs hlen hb acc
      match bs with
      | [] => simp [b64encode, b64decodeAux]
      | [a] =>
          have ha : a < 256 := hb a (by simp)
          have h1 : a / 4 < 64 := by omega
          have h2 : a % 4 * 16 < 64 := by omega
          show b64decodeAux [b64Chr (a / 4), b64Chr (a % 4 * 16), '=', '='] acc [] 0
            = .ok (acc ++ [a])
          rw [decodeAux_data0 (b64Chr_ne_pad h1) (b64Index_b64Chr h1),
              decodeAux_data1 (b64Chr_ne_pad h2) (b64Index_b64Chr h2),
              decodeAux_pad2_first, decodeAux_pad2_second,
              show flushQuad [a / 4, a % 4 * 16] = [a / 4 * 4 + a % 4 * 16 / 16] from rfl,
              show a / 4 * 4 + a % 4 * 16 / 16 = a by omega]
      | [a, b] =>
          have ha : a < 256 := hb a (by simp)
          have hbb : b < 256 := hb b (by simp)
          have h1 : a / 4 < 64 := by omega
          have h2 : a % 4 * 16 + b / 16 < 64 := by omega
          have h3 : b % 16 * 4 < 64 := by omega
          show b64decodeAux
              [b64Chr (a / 4), b64Chr (a % 4 * 16 + b / 16), b64Chr (b % 16 * 4), '='] acc [] 0
            = .ok (acc ++ [a, b])
          rw [decodeAux_data0 (b64Chr_ne_pad h1) (b64Index_b64Chr h1),
              decodeAux_data1 (b64Chr_ne_pad h2) (b64Index_b64Chr h2),
              decodeAux_data2 (b64Chr_ne_pad h3) (b64Index_b64Chr h3),
              decodeAux_pad3,
              show flushQuad [a / 4, a % 4 * 16 + b / 16, b % 16 * 4]
                = [a / 4 * 4 + (a % 4 * 16 + b / 16) / 16,
                   (a % 4 * 16 + b / 16) % 16 * 16 + b % 16 * 4 / 4] from rfl,
              show a / 4 * 4 + (a % 4 * 16 + b / 16) / 16 = a by omega,
              show (a % 4 * 16 + b / 16) % 16 * 16 + b % 16 * 4 / 4 = b by omega]
      | a :: b :: c :: rest =>
          have ha : a < 256 := hb a (by simp)
          have hbb : b < 256 := hb b (by simp)
          have hcc : c < 256 := hb c (by simp)
          have h1 : a / 4 < 64 := by omega
          have h2 : a % 4 * 16 + b / 16 < 64 := by omega
          have h3 : b % 16 * 4 + c / 64 < 64 := by omega
          have h4 : c % 64 < 64 := by omega
          show b64decodeAux
              (b64Chr (a / 4) :: b64Chr (a % 4 * 16 + b / 16)
                :: b64Chr (b % 16 * 4 + c / 64) :: b64Chr (c % 64) :: b64encode rest) acc [] 0
            = .ok (acc ++ (a :: b :: c :: rest))
          rw [decodeAux_data0 (b64Chr_ne_pad h1) (b64Index_b64Chr h1),
              decodeAux_data1 (b64Chr_ne_pad h2) (b64Index_b64Chr h2),
              decodeAux_data2 (b64Chr_ne_pad h3) (b64Index_b64Chr h3),
              decodeAux_data3 (b64Chr_ne_pad h4) (b64Index_b64Chr h4)]
          have hrest : rest.length ≤ n := by
            simp only [List.length_cons] at hlen
            omega
          rw [ih rest hrest (fun x hx => hb x (by simp [hx]))]
          rw [show a / 4 * 4 + (a % 4 * 16 + b / 16) / 16 = a by omega,
              show (a % 4 * 16 + b / 16) % 16 * 16 + (b % 16 * 4 + c / 64) / 4 = b by omega,
              show (b % 16 * 4 + c / 64) % 4 * 64 + c % 64 = c by omega]
          simp

/-- Round trip of `base64.b64decode` over `base64.b64encode`. -/
theorem b64decode_encode (bs : List Nat) (hb : ∀ x ∈ bs, x < 256) :
    b64decode (b64encode bs) = .ok bs := by
  unfold b64decode
  simpa using b64decodeAux_encode bs.length bs le_rfl hb []

/-- Every character the encoder emits is an alphabet character or `=`. -/
theorem b64encode_chars :
    ∀ (n : Nat) (bs : List Nat), bs.length ≤ n → (∀ x ∈ bs, x < 256) →
      ∀ c ∈ b64encode bs, isB64Char c = true ∨ c = '=' := by
  have hchr : ∀ v : Nat, v < 64 → isB64Char (b64Chr v) = true := by
    intro v h
    unfold isB64Char
    rw [b64Index_b64Chr h]
    rfl
  intro n
  induction n with
  | zero =>
      intro bs hlen _ c hc
      have hbs : bs = [] := List.length_eq_zero.mp (Nat.le_zero.mp hlen)
      subst hbs
      simp [b64encode] at hc
  | succ n ih =>
      intro bs hlen hb c hc
      match bs with
      | [] => simp [b64encode] at hc
      | [a] =>
          have ha : a < 256 := hb a (by simp)
          simp only [b64encode, List.mem_cons, List.not_mem_nil, or_false] at hc
          rcases hc with rfl | rfl | rfl | rfl
          · exact Or.inl (hchr _ (by omega))
          · exact Or.inl (hchr _ (by omega))
          · exact Or.inr rfl
          · exact Or.inr rfl
      | [a, b] =>
          have ha : a < 256 := hb a (by simp)
          have hbb : b < 256 := hb b (by simp)
          simp only [b64encode, List.mem_cons, List.not_mem_nil, or_false] at hc
          rcases hc with rfl | rfl | rfl | rfl
          · exact Or.inl (hchr _ (by omega))
          · exact Or.inl (hchr _ (by omega))
          · exact Or.inl (hchr _ (by omega))
          · exact Or.inr rfl
      | a :: b :: d :: rest =>
          have ha : a < 256 := hb a (by simp)
          have hbb : b < 256 := hb b (by simp)
          have hdd : d < 256 := hb d (by simp)
          simp only [b64encode, List.mem_cons] at hc
          rcases hc with rfl | rfl | rfl | rfl | hc
          · exact Or.inl (hchr _ (by omega))
          · exact Or.inl (hchr _ (by omega))
          · exact Or.inl (hchr _ (by omega))
          · exact Or.inl (hchr _ (by omega))
          · exact ih rest (by simp only [List.length_cons] at hlen; omega)
              (fun x hx => hb x (by simp [hx])) c hc

/-- A reference that starts with `data:` does not start with `http`. -/
theorem not_http_of_data {s : List Char} (h : "data:".data.isPrefixOf s = true) :
    "http".data.isPrefixOf s = false := by
  cases s with
  | nil => exact absurd h (by decide)
  | cons c cs =>
      have h' : (('d' == c) && List.isPrefixOf ['a', 't', 'a', ':'] cs) = true := h
      have hc : 'd' = c := beq_iff_eq.mp ((Bool.and_eq_true _ _).mp h').1
      cases hc
      rfl

/-- The encoder's output never starts with `data:` (the colon is neither
an alphabet character nor padding). -/
theorem not_data_of_encode (bs : List Nat) (hb : ∀ x ∈ bs, x < 256) :
    "data:".data.isPrefixOf (b64encode bs) = false := by
  cases heq : "data:".data.isPrefixOf (b64encode bs) with
  | false => rfl
  | true =>
      exfalso
      have hpre : "data:".data <+: b64encode bs := List.isPrefixOf_iff_prefix.mp heq
      have hmem : ':' ∈ b64encode bs := hpre.subset (by decide)
      rcases b64encode_chars bs.length bs le_rfl hb ':' hmem with hch | hch
      · exact absurd hch (by decide)
      · exact absurd hch (by decide)

theorem splitFirstComma_no_comma :
    ∀ s : List Char, (∀ c ∈ s, c ≠ ',') → splitFirstComma s = (s, none) := by
  intro s
  induction s with
  | nil => intro _; rfl
  | cons c cs ih =>
      intro h
      have hc : c ≠ ',' := h c (by simp)
      simp only [splitFirstComma, if_neg hc]
      rw [ih (fun d hd => h d (by simp [hd]))]

theorem splitFirstComma_append :
    ∀ pre : List Char, (∀ c ∈ pre, c ≠ ',') → ∀ post : List Char,
      splitFirstComma (pre ++ ',' :: post) = (pre, some post) := by
  intro pre
  induction pre with
  | nil =>
      intro _ post
      simp [splitFirstComma]
  | cons c cs ih =>
      intro h post
      have hc : c ≠ ',' := h c (by simp)
      simp only [List.cons_append, splitFirstComma, if_neg hc, List.append_eq]
      rw [ih (fun d hd => h d (by simp [hd])) post]

/-- A padding-free stream whose alphabet-character count is not a multiple
of four leaves a partial group behind and fails. -/
theorem b64decodeAux_no_pad :
    ∀ (s : List Char) (acc quad : List Nat) (pads : Nat),
      '=' ∉ s → quad.length ≤ 3 →
      (quad.length + s.countP isB64Char) % 4 ≠ 0 →
      b64decodeAux s acc quad pads = .error .decodeError := by
  intro s
  induction s with
  | nil =>
      intro acc quad pads _ _ hmod
      have hq : quad ≠ [] := by
        intro hq
        subst hq
        simp at hmod
      simp [b64decodeAux, hq]
  | cons c cs ih =>
      intro acc quad pads hmem hq hmod
      have hc : c ≠ '=' := by
        intro he
        exact hmem (he ▸ List.mem_cons_self c cs)
      have hmem' : '=' ∉ cs := fun hx => hmem (List.mem_cons_of_mem c hx)
      simp only [b64decodeAux, if_neg hc]
      cases hidx : b64Index c with
      | none =>
          have hcount : (c :: cs).countP isB64Char = cs.countP isB64Char := by
            simp [List.countP_cons, isB64Char, hidx]
          rw [hcount] at hmod
          exact ih acc quad pads hmem' hq hmod
      | some v =>
          have hcount : (c :: cs).countP isB64Char = cs.countP isB64Char + 1 := by
            simp [List.countP_cons, isB64Char, hidx]
          rw [hcount] at hmod
          rcases quad with _ | ⟨w, _ | ⟨x, _ | ⟨y, _ | ⟨z, t⟩⟩⟩⟩
          · exact ih acc [v] pads hmem' (by simp) (by simp at hmod ⊢; omega)
          · exact ih acc [w, v] pads hmem' (by simp) (by simp at hmod ⊢; omega)
          · exact ih acc [w, x, v] pads hmem' (by simp) (by simp at hmod ⊢; omega)
          · exact ih _ [] pads hmem' (by simp) (by simp at hmod ⊢; omega)
          · simp at hq

/-- The network used by the concrete scenarios: every GET fails with 404. -/
def net404 : List Char → Nat × List Nat := fun _ => (404, [])

/-- Counterexample to claim C6 as stated: the bytes `[134, 219, 105]`
encode to exactly the string `http`, so the materializer treats the bare
encoding as a URL and performs a GET (here failing with a 404 download
error) instead of returning the bytes. -/
theorem materializer_counterexample :
    b64encode [134, 219, 105] = "http".data
    ∧ b64_to_bytes net404 (b64encode [134, 219, 105]) = .error (.downloadError 404)
    ∧ (Except.error (HordeError.downloadError 404) : Except HordeError (List Nat))
        ≠ .ok [134, 219, 105] := by
  refine ⟨by decide, rfl, fun h => Except.noConfusion h⟩

/-- Claim C6 amended: (a) a data-URI wrapping the standard encoding of any
byte sequence round-trips to exactly those bytes; (b) so does a bare
encoding, provided it does not begin with `http` (such a string is treated
as a URL instead); (c) an encoded input with no padding character and an
alphabet-character count that is not a multiple of four — malformed
padding — fails with the decode error, provided the string does not begin
with `http` or `data:`. -/
theorem materializer_roundtrip_spec :
    (∀ (net : List Char → Nat × List Nat) (pre : List Char) (b : List Nat),
      (∀ x ∈ b, x < 256) → "data:".data.isPrefixOf pre = true → (∀ c ∈ pre, c ≠ ',') →
      b64_to_bytes net (pre ++ ',' :: b64encode b) = .ok b)
    ∧ (∀ (net : List Char → Nat × List Nat) (b : List Nat),
      (∀ x ∈ b, x < 256) → "http".data.isPrefixOf (b64encode b) = false →
      b64_to_bytes net (b64encode b) = .ok b)
    ∧ (∀ (net : List Char → Nat × List Nat) (s : List Char),
      "http".data.isPrefixOf s = false → "data:".data.isPrefixOf s = false →
      '=' ∉ s → s.countP isB64Char % 4 ≠ 0 →
      b64_to_bytes net s = .error .decodeError) := by
  refine ⟨?_, ?_, ?_⟩
  · intro net pre b hb hdata hnc
    have hdata' : "data:".data.isPrefixOf (pre ++ ',' :: b64encode b) = true := by
      refine List.isPrefixOf_iff_prefix.mpr ?_
      exact (List.isPrefixOf_iff_prefix.mp hdata).trans (List.prefix_append _ _)
    have hhttp : "http".data.isPrefixOf (pre ++ ',' :: b64encode b) = false :=
      not_http_of_data hdata'
    unfold b64_to_bytes
    rw [hhttp, hdata']
    simp only [Bool.false_eq_true, if_false, if_true]
    rw [splitFirstComma_append pre hnc (b64encode b)]
    exact b64decode_encode b hb
  · intro net b hb hhttp
    have hdata : "data:".data.isPrefixOf (b64encode b) = false := not_data_of_encode b hb
    unfold b64_to_bytes
    rw [hhttp, hdata]
    simp only [Bool.false_eq_true, if_false]
    exact b64decode_encode b hb
  · intro net s hhttp hdata hpad hcount
    unfold b64_to_bytes
    rw [hhttp, hdata]
    simp only [Bool.false_eq_true, if_false]
    exact b64decodeAux_no_pad s [] [] 0 hpad (by simp) (by simpa using hcount)

/-- Witness for the amended C6: the bytes of `hello` round-trip through a
data-URI and through their bare encoding `aGVsbG8=`, and the malformed
padding-free input `abc` fails with the decode error. -/
theorem materializer_roundtrip_spec_witness :
    b64_to_bytes net404 ("data:image/png;base64".data ++ ',' :: b64encode [104, 101, 108, 108, 111])
      = .ok [104, 101, 108, 108, 111]
    ∧ b64_to_bytes net404 (b64encode [104, 101, 108, 108, 111])
      = .ok [104, 101, 108, 108, 111]
    ∧ b64_to_bytes net404 "abc".data = .error .decodeError :=
  ⟨materializer_roundtrip_spec.1 net404 "data:image/png;base64".data
      [104, 101, 108, 108, 111] (by decide) (by decide) (by decide),
   materializer_roundtrip_spec.2.1 net404 [104, 101, 108, 108, 111] (by decide) (by decide),
   materializer_roundtrip_spec.2.2 net404 "abc".data (by decide) (by decide) (by decide)
     (by decide)⟩

/-- Claim C10: a reference that begins with `data:` but contains no comma
makes the materializer fail with the unguarded indexing error — the `[1]`
of a one-element `split` result — rather than a decode error. -/
theorem materializer_data_no_comma_spec (net : List Char → Nat × List Nat)
    (s : List Char) (hdata : "data:".data.isPrefixOf s = true)
    (hnc : ∀ c ∈ s, c ≠ ',') :
    b64_to_bytes net s = .error .indexError := by
  have hhttp : "http".data.isPrefixOf s = false := not_http_of_data hdata
  unfold b64_to_bytes
  rw [hhttp, hdata]
  simp only [Bool.false_eq_true, if_false, if_true]
  rw [splitFirstComma_no_comma s hnc]

/-- Witness for C10 at the comma-free reference `data:image/png;base64`. -/
theorem materializer_data_no_comma_spec_witness :
    b64_to_bytes net404 "data:image/png;base64".data = .error .indexError :=
  materializer_data_no_comma_spec net404 "data:image/png;base64".data (by decide) (by decide)

/-! ## Emotion classifier response handler (`_handle_response` in
`gemini_client.py`)

The response envelope keeps the optional-key structure of the JSON
(`candidates`, `content`, `parts`, `text`); `json.loads` is an abstract
parameter `parse` together with the key-membership test `hasKey` used by
`key in emotion_data`.  Text is handled as its character list; the
`GeminiAPIError` message is carried by the error value. -/

structure GPart where
  text : Option String
deriving DecidableEq

structure GContent where
  parts : Option (List GPart)
deriving DecidableEq

structure GCandidate where
  content : Option GContent
deriving DecidableEq

structure GData where
  candidates : Option (List GCandidate)
deriving DecidableEq

inductive GeminiError
  | apiError (msg : List Char)
  /-- The unguarded `parts[0]` on an empty list. -/
  | partsIndexError
deriving DecidableEq

/-- The whitespace class of Python `str.strip()` (ASCII part). -/
def pySpace (c : Char) : Bool :=
  c == ' ' || c == '\t' || c == '\n' || c == '\r' || c == '\x0b' || c == '\x0c'

/-- Python `str.strip()` on a character list. -/
def pyStrip (s : List Char) : List Char :=
  ((s.dropWhile pySpace).reverse.dropWhile pySpace).reverse

/-- Lines 93–98: strip, drop a literal fence prefix of seven characters,
drop a literal three-character fence suffix, strip again. -/
def strip_code_fences (t : List Char) : List Char :=
  let c := pyStrip t
  let c := if "```json".data.isPrefixOf c then c.drop 7 else c
  let c := if "```".data.isSuffixOf c then c.take (c.length - 3) else c
  pyStrip c

def required_keys : List String := ["dominant_emotion", "confidence", "all_scores"]

/-- `f"Invalid detect response: missing required keys \x7brequired_keys\x7d"`. -/
def missing_keys_msg : List Char :=
  ("Invalid detect response: missing required keys "
    ++ "[\x27dominant_emotion\x27, \x27confidence\x27, \x27all_scores\x27]").data

def invalid_format_msg : List Char :=
  "Invalid response format from Gemini API".data

/-- `_handle_response`: first candidate, first part's text (default empty),
fence stripping, parse, and the three-key requirement; every structural
shortfall falls through to the invalid-format error. -/
def handle_response {α : Type} (parse : List Char → Option α)
    (hasKey : α → String → Bool) (data : GData) (mode : String) : Except GeminiError α :=
  match data.candidates with
  | some (cand :: _) =>
      (match cand.content with
       | some content =>
           (match content.parts with
            | some (part :: _) =>
                let text := (part.text.getD "").data
                if mode = "detect" then
                  let clean := strip_code_fences text
                  match parse clean with
                  | some obj =>
                      if required_keys.all (fun k => hasKey obj k) then .ok obj
                      else .error (.apiError missing_keys_msg)
                  | none =>
                      .error (.apiError ("Could not parse JSON from response: ".data
                        ++ clean.take 200 ++ "...".data))
                else .error (.apiError invalid_format_msg)
            | some [] => .error .partsIndexError
            | none => .error (.apiError invalid_format_msg))
       | none => .error (.apiError invalid_format_msg))
  | _ => .error (.apiError invalid_format_msg)

/-- Key membership for parse results modelled as their key list. -/
def hasKeyL (obj : List String) (k : String) : Bool := obj.contains k

/-- A parse function recognising only the text `OBJ1`, as an object with a
single key. -/
def parseObj1 : List Char → Option (List String) := fun c =>
  if c = "OBJ1".data then some ["dominant_emotion"] else none

def dataObj1 : GData := ⟨some [⟨some ⟨some [⟨some "OBJ1"⟩]⟩⟩]⟩

/-- Counterexample to claim C9 as stated: a response that parses but lacks
two required fields fails with the missing-keys message, which does not
contain the truncated snippet of the offending text. -/
theorem classifier_missing_key_counterexample :
    handle_response parseObj1 hasKeyL dataObj1 "detect"
      = .error (.apiError missing_keys_msg)
    ∧ hasSub ((strip_code_fences "OBJ1".data).take 200) missing_keys_msg = false := by
  refine ⟨rfl, by decide⟩

/-- Claim C9 amended: on a well-formed envelope in detect mode the handler
parses the fence-stripped first text part of the first candidate and
returns the parsed object iff all three required fields are present; a
missing field fails with the fixed missing-keys message, while a parse
failure fails with a message that does contain the truncated snippet
(first 200 characters) of the offending text. -/
theorem classifier_response_spec {α : Type} (parse : List Char → Option α)
    (hasKey : α → String → Bool) (data : GData) (cand : GCandidate)
    (rest : List GCandidate) (content : GContent) (part : GPart)
    (prest : List GPart) (t : String)
    (hc : data.candidates = some (cand :: rest))
    (hcont : cand.content = some content)
    (hparts : content.parts = some (part :: prest))
    (htext : part.text = some t) :
    (∀ obj, parse (strip_code_fences t.data) = some obj →
      (required_keys.all (fun k => hasKey obj k) = true →
        handle_response parse hasKey data "detect" = .ok obj)
      ∧ (required_keys.all (fun k => hasKey obj k) = false →
        handle_response parse hasKey data "detect" = .error (.apiError missing_keys_msg)))
    ∧ (parse (strip_code_fences t.data) = none →
      handle_response parse hasKey data "detect"
        = .error (.apiError ("Could not parse JSON from response: ".data
            ++ (strip_code_fences t.data).take 200 ++ "...".data))
      ∧ hasSub ((strip_code_fences t.data).take 200)
          ("Could not parse JSON from response: ".data
            ++ (strip_code_fences t.data).take 200 ++ "...".data) = true) := by
  have hun : handle_response parse hasKey data "detect"
      = match parse (strip_code_fences t.data) with
        | some obj =>
            if required_keys.all (fun k => hasKey obj k) then .ok obj
            else .error (.apiError missing_keys_msg)
        | none =>
            .error (.apiError ("Could not parse JSON from response: ".data
              ++ (strip_code_fences t.data).take 200 ++ "...".data)) := by
    obtain ⟨cds⟩ := data
    replace hc : cds = some (cand :: rest) := hc
    subst hc
    obtain ⟨cnt⟩ := cand
    replace hcont : cnt = some content := hcont
    subst hcont
    obtain ⟨prts⟩ := content
    replace hparts : prts = some (part :: prest) := hparts
    subst hparts
    obtain ⟨tx⟩ := part
    replace htext : tx = some t := htext
    subst htext
    rfl
  constructor
  · intro obj hobj
    constructor
    · intro hall
      rw [hun, hobj]
      simp [hall]
    · intro hall
      rw [hun, hobj]
      simp [hall]
  · intro hnone
    refine ⟨by rw [hun, hnone], ?_⟩
    exact hasSub_append "Could not parse JSON from response: ".data
      ((strip_code_fences t.data).take 200) "...".data

/-- A parse function recognising only the text `OBJ3`, as an object with
all three required keys. -/
def parseObj3 : List Char → Option (List String) := fun c =>
  if c = "OBJ3".data then some ["dominant_emotion", "confidence", "all_scores"] else none

def dataObj3 : GData := ⟨some [⟨some ⟨some [⟨some "```json OBJ3 ```"⟩]⟩⟩]⟩

/-- Witness for the amended C9: a fenced response whose parse carries all
three keys is stripped and returned. -/
theorem classifier_response_spec_witness :
    handle_response parseObj3 hasKeyL dataObj3 "detect"
      = .ok ["dominant_emotion", "confidence", "all_scores"] :=
  ((classifier_response_spec parseObj3 hasKeyL dataObj3
      ⟨some ⟨some [⟨some "```json OBJ3 ```"⟩]⟩⟩ [] ⟨some [⟨some "```json OBJ3 ```"⟩]⟩
      ⟨some "```json OBJ3 ```"⟩ [] "```json OBJ3 ```" rfl rfl rfl rfl).1
    ["dominant_emotion", "confidence", "all_scores"] (by decide)).1 (by decide)

end EmotionApp
